import Mathlib

/-!
Verification of the repository-mapping resolution model and the filesystem/git
synchronization engine of the hyprlayer thoughts CLI, as a shallow embedding of
`src/config.rs`, `src/commands/thoughts/sync.rs`, `src/commands/thoughts/uninit.rs`
and `src/commands/thoughts/profile/delete.rs`.

HashMaps of the Rust code are modelled as association lists (`List (String × _)`
with `List.lookup`); filesystem and git side effects are modelled by explicit
world/oracle records whose fields give the outcome of each external call, and the
functions under verification are translated statement by statement from the source.
-/

/-! ## Data model (src/config.rs) -/

/-- `ProfileConfig` from src/config.rs: a named alternate storage layout. -/
structure ProfileConfig where
  thoughts_repo : String
  repos_dir : String
  global_dir : String
deriving Repr, DecidableEq

/-- `RepoMapping` from src/config.rs: either a bare directory-name string or an
object carrying the directory name and an optional profile name. -/
inductive RepoMapping where
  | string (s : String)
  | object (repo : String) (profile : Option String)
deriving Repr, DecidableEq

/-- `RepoMapping::repo` from src/config.rs. -/
def RepoMapping.repo : RepoMapping → String
  | .string s => s
  | .object r _ => r

/-- `RepoMapping::profile` from src/config.rs. -/
def RepoMapping.profile : RepoMapping → Option String
  | .string _ => none
  | .object _ p => p

/-- `ThoughtsConfig` from src/config.rs. The four optional agent/opencode fields
are opaque to the resolution and sync core and are not modelled. `HashMap` fields
are modelled as association lists queried with `List.lookup`. -/
structure ThoughtsConfig where
  thoughts_repo : String
  repos_dir : String
  global_dir : String
  user : String
  repo_mappings : List (String × RepoMapping)
  profiles : List (String × ProfileConfig)
deriving Repr, DecidableEq

/-- `EffectiveConfig` from src/config.rs. -/
structure EffectiveConfig where
  thoughts_repo : String
  repos_dir : String
  global_dir : String
  profile_name : Option String
  mapped_name : Option String
deriving Repr, DecidableEq

/-- `ThoughtsConfig::resolve_dirs` from src/config.rs lines 97-107. -/
def ThoughtsConfig.resolve_dirs (c : ThoughtsConfig) (profile : Option String) :
    ProfileConfig :=
  (profile.bind (fun name => c.profiles.lookup name)).getD
    { thoughts_repo := c.thoughts_repo
      repos_dir := c.repos_dir
      global_dir := c.global_dir }

/-- `ThoughtsConfig::effective_config_for` from src/config.rs lines 151-168.
A total function: resolution never raises an error. -/
def ThoughtsConfig.effective_config_for (c : ThoughtsConfig) (repo_path : String) :
    EffectiveConfig :=
  let mapping := c.repo_mappings.lookup repo_path
  let profile_name :=
    (mapping.bind RepoMapping.profile).filter
      (fun name => (c.profiles.lookup name).isSome)
  let dirs := c.resolve_dirs profile_name
  { thoughts_repo := dirs.thoughts_repo
    repos_dir := dirs.repos_dir
    global_dir := dirs.global_dir
    profile_name := profile_name
    mapped_name := mapping.map RepoMapping.repo }

/-- A sample configuration used as concrete input by several witnesses:
one mapping for `/other` and one profile `work`. -/
def sampleConfig : ThoughtsConfig :=
  { thoughts_repo := "~/thoughts"
    repos_dir := "repos"
    global_dir := "global"
    user := "alice"
    repo_mappings := [("/other", RepoMapping.string "other")]
    profiles := [("work", { thoughts_repo := "~/work", repos_dir := "repos", global_dir := "global" })] }

/-- A configuration whose only mapping names a profile that is absent from
`profiles`. -/
def orphanProfileConfig : ThoughtsConfig :=
  { thoughts_repo := "~/thoughts"
    repos_dir := "repos"
    global_dir := "global"
    user := "alice"
    repo_mappings := [("/code/app", RepoMapping.object "app" (some "gone"))]
    profiles := [] }

/-! ## Sync model (src/commands/thoughts/sync.rs, src/git_ops.rs)

The git layer and the filesystem are external; their outcomes are modelled by a
`GitOracle` record (one field per git call sync may issue) and a `SyncWorld`
record (one field per filesystem/config fact sync inspects). The `sync` function
below is translated line by line from `sync` in src/commands/thoughts/sync.rs
lines 120-215, recording every git mutation it issues (`GitAction`) and every
status/warning it reports (`SyncEvent`). -/

deriving instance DecidableEq for Except

/-- The git mutations sync can issue, in the order recorded. -/
inductive GitAction where
  | add_all
  | commit (message : String)
  | pull_rebase
  | push
deriving Repr, DecidableEq

/-- The status and warning messages the sync flow prints. -/
inductive SyncEvent where
  | committed
  | no_changes
  | warn_pull (e : String)
  | warn_push (e : String)
  | no_remote
deriving Repr, DecidableEq

/-- Outcomes of the git calls sync may issue (src/git_ops.rs). -/
structure GitOracle where
  open_repo : Except String Unit
  remote_url : Option String
  add_all : Except String Unit
  has_changes : Except String Bool
  commit : Except String Unit
  pull_rebase : Except String Unit
  push : Except String Unit
deriving Repr

/-- The result of a successful sync run: the thoughts-repository path that was
opened and staged, the git mutations issued, and the messages reported. -/
structure SyncOutcome where
  opened_repo : String
  actions : List GitAction
  events : List SyncEvent
deriving Repr, DecidableEq

/-- The external state sync inspects: the home directory (for `~` expansion), the
config file (`none` = absent, `some none` = present without a thoughts section),
whether `<currentRepo>/thoughts` exists, the outcome of `create_search_directory`,
which filesystem paths exist, and the git oracle. -/
structure SyncWorld where
  home : String
  config_file : Option (Option ThoughtsConfig)
  thoughts_dir_exists : Bool
  search_index : Except String Unit
  existing_paths : List String
  git : GitOracle

/-- `expand_path` from src/config.rs lines 189-192: `shellexpand::tilde`, which
replaces a leading `~` or `~/` with the home directory and leaves every other
path unchanged. -/
def expand_path (home : String) (p : String) : String :=
  if p = "~" then home
  else match p.data with
    | '~' :: '/' :: rest => home ++ String.mk ('/' :: rest)
    | _ => p

/-- The remote phase of `sync` (src/commands/thoughts/sync.rs lines 183-212):
when a remote is configured, pull-rebase then push are always attempted, each
failure downgraded to a warning event; otherwise a no-remote notice is printed. -/
def sync_remote_phase (g : GitOracle) (repo : String) (acts : List GitAction)
    (evs : List SyncEvent) : SyncOutcome :=
  if g.remote_url.isSome then
    let evs1 := evs ++ (match g.pull_rebase with
      | .ok _ => []
      | .error e => [SyncEvent.warn_pull e])
    let evs2 := evs1 ++ (match g.push with
      | .ok _ => []
      | .error e => [SyncEvent.warn_push e])
    { opened_repo := repo
      actions := acts ++ [GitAction.pull_rebase, GitAction.push]
      events := evs2 }
  else
    { opened_repo := repo, actions := acts, events := evs ++ [SyncEvent.no_remote] }

/-- `sync` from src/commands/thoughts/sync.rs lines 120-215. -/
def sync (w : SyncWorld) (message : Option String) (auto_message : String) :
    Except String SyncOutcome :=
  match w.config_file with
  | none => Except.error "No thoughts configuration found. Run 'hyprlayer thoughts init' first."
  | some none => Except.error "No thoughts configuration found"
  | some (some config) =>
    if !w.thoughts_dir_exists then
      Except.error "Thoughts not initialized for this repository. Run 'hyprlayer thoughts init' first."
    else match w.search_index with
    | .error e => Except.error e
    | .ok _ =>
      if !(w.existing_paths.contains (expand_path w.home config.thoughts_repo)) then
        Except.error ("Thoughts repository not found at " ++ config.thoughts_repo)
      else match w.git.open_repo with
      | .error e => Except.error e
      | .ok _ => match w.git.add_all with
        | .error e => Except.error e
        | .ok _ => match w.git.has_changes with
          | .error e => Except.error e
          | .ok changed =>
            if changed then
              match w.git.commit with
              | .error e => Except.error e
              | .ok _ =>
                Except.ok (sync_remote_phase w.git (expand_path w.home config.thoughts_repo)
                  [GitAction.add_all, GitAction.commit (message.getD auto_message)]
                  [SyncEvent.committed])
            else
              Except.ok (sync_remote_phase w.git (expand_path w.home config.thoughts_repo)
                [GitAction.add_all] [SyncEvent.no_changes])

/-- A git oracle in which every call succeeds and a remote is configured. -/
def happyGit : GitOracle :=
  { open_repo := Except.ok ()
    remote_url := some "git@example.com:notes.git"
    add_all := Except.ok ()
    has_changes := Except.ok false
    commit := Except.ok ()
    pull_rebase := Except.ok ()
    push := Except.ok () }

/-- A world in which staging finds no changes but a remote is configured. -/
def noChangesWorld : SyncWorld :=
  { home := "/home/alice"
    config_file := some (some sampleConfig)
    thoughts_dir_exists := true
    search_index := Except.ok ()
    existing_paths := ["/home/alice/thoughts"]
    git := happyGit }

/-- A configuration mapping `/code/app` to the existing profile `work`, whose
thoughts repository differs from the default one. -/
def profileConfig : ThoughtsConfig :=
  { thoughts_repo := "/default-thoughts"
    repos_dir := "repos"
    global_dir := "global"
    user := "alice"
    repo_mappings := [("/code/app", RepoMapping.object "app" (some "work"))]
    profiles := [("work", { thoughts_repo := "/work-thoughts", repos_dir := "repos", global_dir := "global" })] }

/-- A world whose config maps the current repository to profile `work`; both the
default and the profile thoughts repositories exist on disk. -/
def profileWorld : SyncWorld :=
  { home := "/home/alice"
    config_file := some (some profileConfig)
    thoughts_dir_exists := true
    search_index := Except.ok ()
    existing_paths := ["/default-thoughts", "/work-thoughts"]
    git := { happyGit with has_changes := Except.ok true } }

/-- A world in which there are staged changes, the commit succeeds, and the push
fails with a transport error. -/
def pushFailWorld : SyncWorld :=
  { home := "/home/alice"
    config_file := some (some sampleConfig)
    thoughts_dir_exists := true
    search_index := Except.ok ()
    existing_paths := ["/home/alice/thoughts"]
    git := { happyGit with
      has_changes := Except.ok true
      push := Except.error "transport error" } }

/-! ## Search-index traversal model (src/commands/thoughts/sync.rs lines 21-69)

`find_files_following_symlinks` walks the thoughts tree depth-first, following
symlinks, with a set of visited canonical directory paths for cycle safety. The
filesystem is modelled by a finite universe of canonical directory identities
`Fin n`: a directory entry `FsNode.dir d` stands for a plain subdirectory or a
symlink whose target canonicalizes to directory `d` (`fs::canonicalize` is the
identity map onto these identities), and `FsNode.file` stands for a plain file or
a symlink resolving to a file. Recorded paths are lists of path components
relative to the traversal root. -/

/-- A directory entry's resolved target. -/
inductive FsNode (n : Nat) where
  | dir (d : Fin n)
  | file
deriving Repr, DecidableEq

/-- A finite filesystem: the ordered entry list (name and resolved target) of
each canonical directory. -/
structure FileSystem (n : Nat) where
  entries : Fin n → List (String × FsNode n)

/-- The entry filter of the traversal (sync.rs line 44): skip hidden entries,
`CLAUDE.md` and `searchable`. -/
def skip_entry (name : String) : Bool :=
  (match name.data with
   | '.' :: _ => true
   | _ => false) || name == "CLAUDE.md" || name == "searchable"

mutual

/-- `find_files_following_symlinks` from sync.rs lines 21-69: canonicalize the
directory, stop if already visited, otherwise mark it visited and walk its
entries. The result carries the recorded relative paths and the final visited
set, bundled with the fact that the visited set only grows — the invariant the
termination measure needs. Totality of this definition (well-founded on the
number of unvisited canonical directories) is the termination argument for the
source's recursion. -/
def find_files_following_symlinks {n : Nat} (fs : FileSystem n) (d : Fin n)
    (pre : List String) (visited : Finset (Fin n)) :
    { r : List (List String) × Finset (Fin n) // visited ⊆ r.2 } :=
  if h : d ∈ visited then ⟨([], visited), Finset.Subset.refl _⟩
  else
    let r := walk_entries fs (fs.entries d) pre (insert d visited)
    ⟨r.1, Finset.Subset.trans (Finset.subset_insert d visited) r.2⟩
termination_by ((Finset.univ \ visited).card, 0)
decreasing_by
  refine Prod.Lex.left _ _ ?_
  refine Finset.card_lt_card ((Finset.ssubset_iff_of_subset
    (Finset.sdiff_subset_sdiff (Finset.Subset.refl _) (Finset.subset_insert d visited))).2
    ⟨d, by simp [h], by simp⟩)

/-- The entry loop of `find_files_following_symlinks` (sync.rs lines 37-66):
skip filtered names; recurse into directories (threading the visited set from
entry to entry, as the Rust `&mut HashSet` does); record files as
`pre ++ [name]`, their path relative to the root. -/
def walk_entries {n : Nat} (fs : FileSystem n) (es : List (String × FsNode n))
    (pre : List String) (visited : Finset (Fin n)) :
    { r : List (List String) × Finset (Fin n) // visited ⊆ r.2 } :=
  match es with
  | [] => ⟨([], visited), Finset.Subset.refl _⟩
  | (name, node) :: rest =>
    if skip_entry name then walk_entries fs rest pre visited
    else
      match node with
      | FsNode.dir d =>
        let r1 := find_files_following_symlinks fs d (pre ++ [name]) visited
        let r2 := walk_entries fs rest pre r1.1.2
        ⟨(r1.1.1 ++ r2.1.1, r2.1.2), Finset.Subset.trans r1.2 r2.2⟩
      | FsNode.file =>
        let r2 := walk_entries fs rest pre visited
        ⟨((pre ++ [name]) :: r2.1.1, r2.1.2), r2.2⟩
termination_by ((Finset.univ \ visited).card, es.length + 1)
decreasing_by
  · exact Prod.Lex.right _ (by simp only [List.length_cons]; omega)
  · exact Prod.Lex.right _ (by simp only [List.length_cons]; omega)
  · rcases lt_or_eq_of_le (Finset.card_le_card
        (Finset.sdiff_subset_sdiff (Finset.Subset.refl _) r1.2)) with hlt | heq
    · exact Prod.Lex.left _ _ hlt
    · rw [heq]
      exact Prod.Lex.right _ (by simp only [List.length_cons]; omega)
  · exact Prod.Lex.right _ (by simp only [List.length_cons]; omega)

end

/-- The traversal as called by `create_search_directory` (sync.rs line 90): start
at the thoughts directory with an empty visited set and an empty relative
prefix; the recorded relative paths are then mirrored one-to-one under
`searchable/` as hard links. -/
def find_all_files {n : Nat} (fs : FileSystem n) (root : Fin n) :
    List (List String) :=
  (find_files_following_symlinks fs root [] ∅).1.1

/-- A one-directory filesystem containing a file and a self-referential symlink
back to the root directory: a directory cycle. -/
def loopFs : FileSystem 1 :=
  { entries := fun _ => [("a.md", FsNode.file), ("loop", FsNode.dir 0)] }

/-! ## JSON document model (serde_json values)

`save` (src/config.rs lines 121-131) and profile `delete`
(src/commands/thoughts/profile/delete.rs) manipulate the config file as a JSON
document. The fragment of serde_json values they touch is modelled by `JVal`:
null, strings, and objects as ordered field lists. -/

/-- A serde_json value, restricted to the shapes the config document uses. -/
inductive JVal where
  | null
  | str (s : String)
  | obj (fields : List (String × JVal))

/-- `serde_json::Value::get` on an object key: `None` on non-objects. -/
def JVal.get : JVal → String → Option JVal
  | .obj fields, k => fields.lookup k
  | _, _ => none

/-- In-place update of an object field (serde_json map insert over an existing key). -/
def set_field (fields : List (String × JVal)) (k : String) (v : JVal) :
    List (String × JVal) :=
  fields.map (fun kv => if kv.1 == k then (kv.1, v) else kv)

/-- Removal of an object field (serde_json map remove). -/
def remove_field (fields : List (String × JVal)) (k : String) :
    List (String × JVal) :=
  fields.filter (fun kv => !(kv.1 == k))

/-- Serde serialization of `ProfileConfig` (rename_all = camelCase). -/
def ProfileConfig.toJson (p : ProfileConfig) : JVal :=
  .obj [("thoughtsRepo", .str p.thoughts_repo), ("reposDir", .str p.repos_dir),
        ("globalDir", .str p.global_dir)]

/-- Serde serialization of `RepoMapping` (untagged): the bare variant is a plain
string; the object variant has fields `repo` and `profile` (null when absent). -/
def RepoMapping.toJson : RepoMapping → JVal
  | .string s => .str s
  | .object r p =>
    .obj [("repo", .str r),
          ("profile", match p with | some s => .str s | none => .null)]

/-- Serde serialization of `ThoughtsConfig` (rename_all = camelCase): the
`repo_mappings` map serializes under the key `repoMappings` and `profiles` under
`profiles`. The four optional agent/opencode fields, opaque to this core, are
omitted. -/
def ThoughtsConfig.toJson (c : ThoughtsConfig) : JVal :=
  .obj [("thoughtsRepo", .str c.thoughts_repo),
        ("reposDir", .str c.repos_dir),
        ("globalDir", .str c.global_dir),
        ("user", .str c.user),
        ("repoMappings", .obj (c.repo_mappings.map (fun kv => (kv.1, kv.2.toJson)))),
        ("profiles", .obj (c.profiles.map (fun kv => (kv.1, kv.2.toJson))))]

/-- `ThoughtsConfig::save` from src/config.rs lines 121-131: the document written
to the config file is `json!({"thoughts": self})`, computed without reading the
file; `prev` is the prior content of the file when it exists, and the result is
the file's content after the call. (The call also creates the parent directory;
that filesystem effect carries no document content and is not modelled.) -/
def ThoughtsConfig.save (c : ThoughtsConfig) (_prev : Option JVal) : JVal :=
  JVal.obj [("thoughts", c.toJson)]

/-- The in-use scan of profile `delete`
(src/commands/thoughts/profile/delete.rs lines 29-42): inside the `thoughts`
object it reads the key `repo_mappings` (snake case, as written in the source)
and returns the first repository whose mapping's `profile` field equals the
profile being deleted. -/
def profile_in_use (doc : JVal) (profile_name : String) : Option String :=
  match doc.get "thoughts" with
  | some (JVal.obj thoughts) =>
    match thoughts.lookup "repo_mappings" with
    | some (JVal.obj repo_mappings) =>
      (repo_mappings.find? (fun kv =>
        match kv.2.get "profile" with
        | some (JVal.str p) => p == profile_name
        | _ => false)).map (fun kv => kv.1)
    | _ => none
  | _ => none

/-- `delete` from src/commands/thoughts/profile/delete.rs lines 17-68, after the
config file has been read into `doc`. -/
def profile_delete (doc : JVal) (force : Bool) (profile_name : String) :
    Except String JVal :=
  match (if force then none else profile_in_use doc profile_name) with
  | some repo =>
    Except.error ("Profile \"" ++ profile_name ++ "\" is in use by repository: "
      ++ repo ++ ". Use --force to delete anyway.")
  | none =>
    match doc with
    | JVal.obj top =>
      match top.lookup "thoughts" with
      | some (JVal.obj thoughts) =>
        match thoughts.lookup "profiles" with
        | some (JVal.obj profiles) =>
          if (profiles.lookup profile_name).isNone then
            Except.error ("Profile \"" ++ profile_name ++ "\" does not exist")
          else
            Except.ok (JVal.obj (set_field top "thoughts" (JVal.obj
              (if (remove_field profiles profile_name).isEmpty then
                remove_field thoughts "profiles"
              else
                set_field thoughts "profiles"
                  (JVal.obj (remove_field profiles profile_name))))))
        | _ => Except.error "No profiles configured"
      | _ => Except.error "No thoughts configuration"
    | _ => Except.error "No thoughts configuration"

/-- An existing config document holding an unrelated top-level section `editor`
besides `thoughts`. -/
def prevDoc : JVal :=
  JVal.obj [("thoughts", sampleConfig.toJson), ("editor", JVal.str "vim")]

/-- The serialized document of a configuration whose only mapping references the
existing profile `work`, as written by `ThoughtsConfig::save`. -/
def inUseDoc : JVal := profileConfig.save none

/-! ## Uninit model (src/commands/thoughts/uninit.rs) -/

/-- `load_config_mapping` from src/commands/thoughts/uninit.rs lines 10-58: config
file state is `none` when absent and `some none` when present without a thoughts
section. Every path of the source returns `Ok`; the not-mapped/no-config cases
merely print an error message and return an empty triple
(mapped name, profile name, thoughts repo). -/
def load_config_mapping (config : Option (Option ThoughtsConfig))
    (current_repo : String) (force : Bool) :
    Option String × Option String × Option String :=
  match config with
  | none => (none, none, none)
  | some none => (none, none, none)
  | some (some c) =>
    match c.repo_mappings.lookup current_repo with
    | some m => (some m.repo, m.profile, some c.thoughts_repo)
    | none =>
      if force then (none, none, some c.thoughts_repo) else (none, none, none)

/-- The external state `uninit` inspects. -/
structure UninitWorld where
  thoughts_dir_exists : Bool
  searchable_exists : Bool
  config_file : Option (Option ThoughtsConfig)

/-- The removals a completed `uninit` run performed. -/
structure UninitOutcome where
  searchable_removed : Bool
  thoughts_dir_removed : Bool
  removed_from_config : Bool
deriving Repr, DecidableEq

/-- `uninit` from src/commands/thoughts/uninit.rs lines 71-146: after the
`thoughts/` existence check, the searchable mirror and the whole `thoughts/`
directory are removed unconditionally; the config entry is removed when a mapping
was found and the config file exists. -/
def uninit (w : UninitWorld) (current_repo : String) (force : Bool) :
    Except String UninitOutcome :=
  if !w.thoughts_dir_exists then
    Except.error "Thoughts not initialized for this repository."
  else
    let info := load_config_mapping w.config_file current_repo force
    Except.ok
      { searchable_removed := w.searchable_exists
        thoughts_dir_removed := true
        removed_from_config := info.1.isSome && w.config_file.isSome }

/-- A world for `uninit` whose config exists but does not map the current
repository. -/
def unmappedWorld : UninitWorld :=
  { thoughts_dir_exists := true
    searchable_exists := true
    config_file := some (some sampleConfig) }

/-! ## Theorems -/

/-- Claim C1, counterexample: a run in which `hasChanges()` is false (so no commit is
made) yet sync, with a remote configured, still invokes push — refuting "push is
attempted only if the commit step produced a commit". -/
theorem sync_pushes_without_commit :
    noChangesWorld.git.has_changes = Except.ok false ∧
    sync noChangesWorld none "auto" =
      Except.ok
        { opened_repo := "/home/alice/thoughts"
          actions := [GitAction.add_all, GitAction.pull_rebase, GitAction.push]
          events := [SyncEvent.no_changes] } ∧
    GitAction.push ∈ [GitAction.add_all, GitAction.pull_rebase, GitAction.push] :=
  ⟨rfl, by decide, by decide⟩

/-- Claim C1 as amended: in every successful sync run, push is invoked exactly when a
remote is configured, regardless of whether the commit step produced a commit; a
push failure is downgraded to a warning (see the C5 theorem). -/
theorem sync_push_iff_remote (w : SyncWorld) (m : Option String) (a : String)
    (out : SyncOutcome) (h : sync w m a = Except.ok out) :
    (GitAction.push ∈ out.actions ↔ w.git.remote_url.isSome = true) := by
  unfold sync at h
  split at h
  · exact absurd h (by simp)
  · exact absurd h (by simp)
  · split at h
    · exact absurd h (by simp)
    · split at h
      · exact absurd h (by simp)
      · split at h
        · exact absurd h (by simp)
        · split at h
          · exact absurd h (by simp)
          · split at h
            · exact absurd h (by simp)
            · split at h
              · exact absurd h (by simp)
              · split at h
                · split at h
                  · exact absurd h (by simp)
                  · simp only [Except.ok.injEq] at h
                    subst h
                    by_cases hr : w.git.remote_url.isSome = true <;>
                      simp [sync_remote_phase, hr]
                · simp only [Except.ok.injEq] at h
                  subst h
                  by_cases hr : w.git.remote_url.isSome = true <;>
                    simp [sync_remote_phase, hr]

/-- Witness for the amended C1 at a concrete world with a remote and no changes. -/
theorem sync_push_iff_remote_witness :
    GitAction.push ∈
        [GitAction.add_all, GitAction.pull_rebase, GitAction.push] ↔
      noChangesWorld.git.remote_url.isSome = true := by
  have h := sync_push_iff_remote noChangesWorld none "auto"
    { opened_repo := "/home/alice/thoughts"
      actions := [GitAction.add_all, GitAction.pull_rebase, GitAction.push]
      events := [SyncEvent.no_changes] } (by decide)
  exact h

/-- Claim C2 (code bug): the effective configuration for `/code/app` resolves to the
profile's thoughts repository `/work-thoughts`, but sync opens and stages the
top-level default `/default-thoughts` — `effective_config_for` is not consulted by
the sync flow. -/
theorem sync_ignores_effective_config :
    (profileConfig.effective_config_for "/code/app").thoughts_repo = "/work-thoughts" ∧
    (profileConfig.effective_config_for "/code/app").profile_name = some "work" ∧
    (sync profileWorld none "auto").map SyncOutcome.opened_repo =
      Except.ok "/default-thoughts" ∧
    "/default-thoughts" ≠ "/work-thoughts" :=
  ⟨by decide, by decide, by decide, by decide⟩

/-- Claim C5: in every sync run in which the checks pass, staging succeeds, there are
changes, the local commit succeeds, and a remote is configured, the run returns
success overall, the commit is retained among the issued actions, and a failure of
pull-rebase or push surfaces only as a warning event. -/
theorem sync_push_failure_is_warning (w : SyncWorld) (c : ThoughtsConfig)
    (m : Option String) (a : String)
    (hc : w.config_file = some (some c))
    (ht : w.thoughts_dir_exists = true)
    (hs : w.search_index = Except.ok ())
    (he : w.existing_paths.contains (expand_path w.home c.thoughts_repo) = true)
    (ho : w.git.open_repo = Except.ok ())
    (ha : w.git.add_all = Except.ok ())
    (hch : w.git.has_changes = Except.ok true)
    (hcm : w.git.commit = Except.ok ())
    (hr : w.git.remote_url.isSome = true) :
    ∃ out : SyncOutcome, sync w m a = Except.ok out ∧
      GitAction.commit (m.getD a) ∈ out.actions ∧
      (∀ e, w.git.pull_rebase = Except.error e → SyncEvent.warn_pull e ∈ out.events) ∧
      (∀ e, w.git.push = Except.error e → SyncEvent.warn_push e ∈ out.events) := by
  refine ⟨sync_remote_phase w.git (expand_path w.home c.thoughts_repo)
    [GitAction.add_all, GitAction.commit (m.getD a)] [SyncEvent.committed], ?_, ?_, ?_, ?_⟩
  · have he' : expand_path w.home c.thoughts_repo ∈ w.existing_paths := by
      simpa using he
    simp [sync, hc, ht, hs, he', ho, ha, hch, hcm]
  · simp [sync_remote_phase, hr]
  · intro e hp
    simp [sync_remote_phase, hr, hp]
  · intro e hp
    simp [sync_remote_phase, hr, hp]

/-- Witness for C5 at a concrete world whose push fails with a transport error. -/
theorem sync_push_failure_is_warning_witness :
    pushFailWorld.git.has_changes = Except.ok true ∧
    pushFailWorld.git.push = Except.error "transport error" ∧
    (∃ out : SyncOutcome, sync pushFailWorld none "auto" = Except.ok out ∧
      GitAction.commit ((none : Option String).getD "auto") ∈ out.actions ∧
      (∀ e, pushFailWorld.git.pull_rebase = Except.error e →
        SyncEvent.warn_pull e ∈ out.events) ∧
      (∀ e, pushFailWorld.git.push = Except.error e →
        SyncEvent.warn_push e ∈ out.events)) :=
  ⟨rfl, rfl,
    sync_push_failure_is_warning pushFailWorld sampleConfig none "auto"
      rfl rfl rfl (by decide) rfl rfl rfl rfl rfl⟩

/-- Claim C3: for every configuration and every repository path that is not a key of
`repoMappings`, `effective_config_for` returns the default layout with
`mapped_name = none` and `profile_name = none`. (The operation is a total Lean
function, so it never raises an error for any input.) -/
theorem effective_config_for_unmapped (c : ThoughtsConfig) (p : String)
    (h : c.repo_mappings.lookup p = none) :
    c.effective_config_for p =
      { thoughts_repo := c.thoughts_repo
        repos_dir := c.repos_dir
        global_dir := c.global_dir
        profile_name := none
        mapped_name := none } := by
  simp [ThoughtsConfig.effective_config_for, h, ThoughtsConfig.resolve_dirs]

/-- Witness for C3 at a concrete configuration and unmapped path. -/
theorem effective_config_for_unmapped_witness :
    sampleConfig.repo_mappings.lookup "/code/app" = none ∧
    sampleConfig.effective_config_for "/code/app" =
      { thoughts_repo := sampleConfig.thoughts_repo
        repos_dir := sampleConfig.repos_dir
        global_dir := sampleConfig.global_dir
        profile_name := none
        mapped_name := none } :=
  ⟨by decide, effective_config_for_unmapped sampleConfig "/code/app" (by decide)⟩

/-- Claim C4: for every mapping whose profile field names a profile absent from the
profiles map, `effective_config_for` returns the default layout's directories, sets
`profile_name` to `none`, and still returns the mapping's repo value as
`mapped_name`. -/
theorem effective_config_for_missing_profile (c : ThoughtsConfig) (p : String)
    (m : RepoMapping) (pr : String)
    (hm : c.repo_mappings.lookup p = some m)
    (hp : m.profile = some pr)
    (hmiss : c.profiles.lookup pr = none) :
    c.effective_config_for p =
      { thoughts_repo := c.thoughts_repo
        repos_dir := c.repos_dir
        global_dir := c.global_dir
        profile_name := none
        mapped_name := some m.repo } := by
  simp [ThoughtsConfig.effective_config_for, hm, hp, hmiss,
    ThoughtsConfig.resolve_dirs, Option.filter]

/-- Witness for C4 at a concrete configuration whose mapping names the missing
profile `gone`. -/
theorem effective_config_for_missing_profile_witness :
    orphanProfileConfig.repo_mappings.lookup "/code/app" =
      some (RepoMapping.object "app" (some "gone")) ∧
    (RepoMapping.object "app" (some "gone")).profile = some "gone" ∧
    orphanProfileConfig.profiles.lookup "gone" = none ∧
    orphanProfileConfig.effective_config_for "/code/app" =
      { thoughts_repo := orphanProfileConfig.thoughts_repo
        repos_dir := orphanProfileConfig.repos_dir
        global_dir := orphanProfileConfig.global_dir
        profile_name := none
        mapped_name := some (RepoMapping.object "app" (some "gone")).repo } :=
  ⟨by decide, by decide, by decide,
    effective_config_for_missing_profile orphanProfileConfig "/code/app"
      (RepoMapping.object "app" (some "gone")) "gone" (by decide) (by decide) (by decide)⟩

/-- Claim C8, counterexample: an existing document carries an unrelated top-level
section `editor`; after `save` rewrites the file, that section is gone — `save`
does not read-modify-write the surrounding document. -/
theorem save_drops_unrelated_sections :
    prevDoc.get "editor" = some (JVal.str "vim") ∧
    (sampleConfig.save (some prevDoc)).get "editor" = none :=
  ⟨rfl, rfl⟩

/-- Claim C8 as amended: `save(config, path)` creates parent directories as needed
but performs a blind full overwrite serializing only `{"thoughts": config}`: every
top-level section other than `thoughts` is absent from the rewritten document,
whatever the previous content was. -/
theorem save_writes_only_thoughts_section (c : ThoughtsConfig) (prev : Option JVal)
    (k : String) (hk : k ≠ "thoughts") : (c.save prev).get k = none := by
  have hb : (k == "thoughts") = false := beq_eq_false_iff_ne.mpr hk
  simp [ThoughtsConfig.save, JVal.get, List.lookup, hb]

/-- Witness for the amended C8 at the concrete section name `editor`. -/
theorem save_writes_only_thoughts_section_witness :
    "editor" ≠ "thoughts" ∧
    (sampleConfig.save (some prevDoc)).get "editor" = none :=
  ⟨by decide,
    save_writes_only_thoughts_section sampleConfig (some prevDoc) "editor" (by decide)⟩

/-- Claim C9 (code bug): the config maps `/code/app` to profile `work` and the
serialized document stores the mappings under the camelCase key `repoMappings`,
but the delete in-use scan reads the key `repo_mappings`, finds nothing, and the
profile is deleted without `--force` even though a mapping references it. -/
theorem profile_delete_in_use_not_detected :
    (profileConfig.repo_mappings.lookup "/code/app").map RepoMapping.profile =
      some (some "work") ∧
    (profileConfig.profiles.lookup "work").isSome = true ∧
    (inUseDoc.get "thoughts").bind (fun t => t.get "repoMappings") =
      some (JVal.obj [("/code/app",
        JVal.obj [("repo", JVal.str "app"), ("profile", JVal.str "work")])]) ∧
    profile_in_use inUseDoc "work" = none ∧
    (profile_delete inUseDoc false "work").isOk = true :=
  ⟨rfl, rfl, rfl, rfl, rfl⟩

/-- Claim C10 (code bug): with an existing configuration that does not map the
current repository and without `--force`, `uninit` still returns success and
removes both the searchable mirror and the whole `thoughts/` directory (while its
own message says `--force` would be needed), because `load_config_mapping`
returns `Ok` with an empty triple instead of aborting. -/
theorem uninit_removes_without_force :
    sampleConfig.repo_mappings.lookup "/code/app" = none ∧
    uninit unmappedWorld "/code/app" false =
      Except.ok
        { searchable_removed := true
          thoughts_dir_removed := true
          removed_from_config := false } :=
  ⟨rfl, rfl⟩

/-- The entry budget of the not-yet-visited directories: walking a directory
spends its own entry list from the budget, so the recorded paths are bounded. -/
theorem sum_entries_insert {n : Nat} (fs : FileSystem n) (visited : Finset (Fin n))
    (d : Fin n) (h : d ∉ visited) :
    (fs.entries d).length + ∑ x ∈ Finset.univ \ insert d visited, (fs.entries x).length
      = ∑ x ∈ Finset.univ \ visited, (fs.entries x).length := by
  rw [Finset.sdiff_insert, add_comm]
  exact Finset.sum_erase_add _ _ (by simp [h])

/-- Joint invariant of the traversal, by its functional induction: the number of
recorded paths plus the remaining budget of unvisited directories never exceeds
the incoming budget — each canonical directory's entries are consumed at most
once, since a revisited directory contributes nothing. -/
theorem find_files_budget {n : Nat} (fs : FileSystem n) :
    ∀ (d : Fin n) (pre : List String) (visited : Finset (Fin n)),
      (find_files_following_symlinks fs d pre visited).1.1.length
        + ∑ x ∈ Finset.univ \ (find_files_following_symlinks fs d pre visited).1.2,
            (fs.entries x).length
      ≤ ∑ x ∈ Finset.univ \ visited, (fs.entries x).length := by
  refine find_files_following_symlinks.induct fs
    (fun d pre visited =>
      (find_files_following_symlinks fs d pre visited).1.1.length
        + ∑ x ∈ Finset.univ \ (find_files_following_symlinks fs d pre visited).1.2,
            (fs.entries x).length
      ≤ ∑ x ∈ Finset.univ \ visited, (fs.entries x).length)
    (fun es pre visited =>
      (walk_entries fs es pre visited).1.1.length
        + ∑ x ∈ Finset.univ \ (walk_entries fs es pre visited).1.2,
            (fs.entries x).length
      ≤ es.length + ∑ x ∈ Finset.univ \ visited, (fs.entries x).length)
    ?_ ?_ ?_ ?_ ?_ ?_
  · intro d pre visited h
    simp [find_files_following_symlinks, h]
  · intro d pre visited h ih
    rw [find_files_following_symlinks]
    simp only [h, dite_false]
    have hsum := sum_entries_insert fs visited d h
    omega
  · intro pre visited
    simp [walk_entries]
  · intro pre visited name node rest hskip ih
    rw [walk_entries.eq_def]
    simp [hskip]
    omega
  · intro pre visited name rest hskip a r1 ih1 ih2 ih3
    have hsf : skip_entry name = false := by simpa using hskip
    rw [walk_entries.eq_def]
    simp [hsf, List.length_append]
    omega
  · intro pre visited name rest hskip ih
    have hsf : skip_entry name = false := by simpa using hskip
    rw [walk_entries.eq_def]
    simp [hsf]
    omega

/-- Claim C6: for every finite directory tree — including trees whose symlinks
point back, directly or transitively, to an ancestor directory, such as `loopFs`
— the index-building traversal terminates (it is a total function, by
well-founded recursion on the unvisited canonical directories, never descending
into an already-visited one) and the count of recorded paths is finite, bounded
by the total number of directory entries in the filesystem. -/
theorem find_all_files_length_le {n : Nat} (fs : FileSystem n) (root : Fin n) :
    (find_all_files fs root).length ≤ ∑ d : Fin n, (fs.entries d).length := by
  have h := find_files_budget fs root [] ∅
  simpa [find_all_files, Finset.sdiff_empty] using le_trans (Nat.le_add_right _ _) h

/-- Joint invariant for the exclusion property, by functional induction: every
component of every recorded path passed the entry filter, given that the
accumulated prefix did. -/
theorem find_files_components {n : Nat} (fs : FileSystem n) :
    ∀ (d : Fin n) (pre : List String) (visited : Finset (Fin n)),
      (∀ c ∈ pre, skip_entry c = false) →
      ∀ p ∈ (find_files_following_symlinks fs d pre visited).1.1,
        ∀ c ∈ p, skip_entry c = false := by
  refine find_files_following_symlinks.induct fs
    (fun d pre visited => (∀ c ∈ pre, skip_entry c = false) →
      ∀ p ∈ (find_files_following_symlinks fs d pre visited).1.1,
        ∀ c ∈ p, skip_entry c = false)
    (fun es pre visited => (∀ c ∈ pre, skip_entry c = false) →
      ∀ p ∈ (walk_entries fs es pre visited).1.1,
        ∀ c ∈ p, skip_entry c = false)
    ?_ ?_ ?_ ?_ ?_ ?_
  · intro d pre visited h hpre
    simp [find_files_following_symlinks, h]
  · intro d pre visited h ih hpre
    rw [find_files_following_symlinks]
    simp only [h, dite_false]
    exact ih hpre
  · intro pre visited hpre
    simp [walk_entries]
  · intro pre visited name node rest hskip ih hpre
    rw [walk_entries.eq_def]
    simpa [hskip] using ih hpre
  · intro pre visited name rest hskip a r1 ih1 ih2 ih3 hpre
    have hsf : skip_entry name = false := by simpa using hskip
    have hpre1 : ∀ c ∈ pre ++ [name], skip_entry c = false := by
      intro c hc
      rcases List.mem_append.mp hc with hcc | hcc
      · exact hpre c hcc
      · rw [List.mem_singleton.mp hcc]
        exact hsf
    rw [walk_entries.eq_def]
    simp only [hsf, Bool.false_eq_true, if_false]
    intro p hp
    rcases List.mem_append.mp hp with hm | hm
    · exact ih1 hpre1 p hm
    · exact ih3 hpre p hm
  · intro pre visited name rest hskip ih hpre
    have hsf : skip_entry name = false := by simpa using hskip
    have hpre1 : ∀ c ∈ pre ++ [name], skip_entry c = false := by
      intro c hc
      rcases List.mem_append.mp hc with hcc | hcc
      · exact hpre c hcc
      · rw [List.mem_singleton.mp hcc]
        exact hsf
    rw [walk_entries.eq_def]
    simp only [hsf, Bool.false_eq_true, if_false]
    intro p hp
    rcases List.mem_cons.mp hp with hm | hm
    · rw [hm]
      exact hpre1
    · exact ih hpre p hm

/-- Claim C7: no path recorded by the traversal — and hence none mirrored into
`searchable/`, which links exactly the recorded relative paths — contains a
component named `CLAUDE.md` or `searchable`, or a component starting with `.`. -/
theorem find_all_files_no_reserved {n : Nat} (fs : FileSystem n) (root : Fin n)
    (p : List String) (hp : p ∈ find_all_files fs root) :
    ∀ c ∈ p, skip_entry c = false :=
  find_files_components fs root [] ∅ (by simp) p hp

/-- Witness for C7: in the cyclic one-directory filesystem, the traversal records
exactly the path `["a.md"]`, and none of its components is a reserved name. -/
theorem find_all_files_no_reserved_witness :
    ["a.md"] ∈ find_all_files loopFs 0 ∧
    ∀ c ∈ ["a.md"], skip_entry c = false := by
  refine ⟨?_, find_all_files_no_reserved loopFs 0 ["a.md"] ?_⟩ <;>
    simp [find_all_files, find_files_following_symlinks, walk_entries, skip_entry, loopFs]
